import Mathlib

/-!
Shallow embedding of the rust-cat-reminder repository.

The embedding follows the source files under `src/`:
- `src/reminder.rs`   : the Reminder loop (LED state machine, button, night window)
- `src/main.rs`       : the earlier actix snapshot (`LedManager::handle (Tick)`)
- `src/protocol.rs`   : the wire `Message` union and its bincode encoding
- `src/transport.rs`  : the Synchronization Channel event loop
- `src/network.rs`    : the earlier snapshot of the Synchronization Channel
- `src/led.rs`        : the LED color constants

Modelling conventions:
- `chrono::DateTime<Utc>` is modelled as `Timestamp` (whole epoch seconds plus
  a nanosecond component, exactly chrono's precision).
- `chrono::Duration` (`TimeDelta`) is modelled as `Duration` with chrono's
  normalized representation: `secs` is the floor in seconds and `nanos` the
  nonnegative sub-second part (invariant `nanos < 10^9` where it matters).
- Machine integers (`i64` seconds, `u8` bytes) are modelled as `Int`/`Nat`
  with explicit two's-complement conversion (`% 2^64`) in the wire encoding.
- Effects (LED writes, channel sends, file persistence) are returned as
  explicit output lists; a Rust `panic!`/`unwrap()` on `Err` is modelled by
  returning `none` from an `Option`-valued step function.
-/

/-- `rs_ws281x::RawColor`: a 4-channel intensity value. -/
abbrev RawColor := List Nat

/-- Color constants from `src/led.rs` (`LedController` trait). -/
def RPILedController.BLACK : RawColor := [0, 0, 0, 0]

def RPILedController.LIGHT_GREEN : RawColor := [0, 60, 0, 0]

def RPILedController.DARK_GREEN : RawColor := [0, 20, 0, 0]

def RPILedController.ORANGE : RawColor := [0, 60, 255, 0]

def RPILedController.RED : RawColor := [0, 0, 255, 0]

/-- `chrono::DateTime<Utc>`: whole seconds since the epoch plus a nonnegative
sub-second nanosecond component (chrono stores exactly this precision). -/
structure Timestamp where
  secs : Int
  nanos : Nat
deriving DecidableEq

/-- The instant a `Timestamp` denotes, in integer nanoseconds since the epoch. -/
def Timestamp.value (t : Timestamp) : Int :=
  t.secs * 1000000000 + t.nanos

/-- `chrono::Duration` (`TimeDelta`), in chrono's normalized representation:
`secs` (floor) plus a nonnegative `nanos < 10^9` sub-second part. -/
structure Duration where
  secs : Int
  nanos : Nat
deriving DecidableEq

/-- The signed length of a `Duration` in integer nanoseconds. -/
def Duration.value (d : Duration) : Int :=
  d.secs * 1000000000 + d.nanos

/-- `chrono::Duration::num_seconds`: the number of whole seconds, truncating
toward zero (chrono: `if secs < 0 && nanos > 0 { secs + 1 } else { secs }`). -/
def Duration.num_seconds (d : Duration) : Int :=
  if d.secs < 0 ∧ 0 < d.nanos then d.secs + 1 else d.secs

/-- `chrono::Duration::hours(n)`. -/
def Duration.hours (n : Int) : Duration :=
  ⟨3600 * n, 0⟩

/-- `DateTime::signed_duration_since`: the exact difference `a - b`, stored in
chrono's normalized form (floor seconds, nonnegative nanos). -/
def signed_duration_since (a b : Timestamp) : Duration :=
  let v := a.value - b.value
  ⟨v / 1000000000, (v % 1000000000).toNat⟩

/-- `LEDStripState` from `src/reminder.rs`. The spec's band names map as:
Fresh = LightGreen, Aging = DarkGreen, Warning = Orange, Urgent = Red,
Critical = BlinkingRed. -/
inductive LEDStripState where
  | LightGreen
  | DarkGreen
  | Orange
  | Red
  | BlinkingRed
deriving DecidableEq

/-- `LEDStripState::state_from_duration` (`src/reminder.rs` lines 33-41):
matches `duration.num_seconds()` against the ranges `0..=7`, `8..=11`,
`12..=23`, `24..=25` with catch-all `BlinkingRed`. Note the source matches
on `num_seconds()`, i.e. the thresholds are applied to SECONDS. -/
def LEDStripState.state_from_duration (duration : Duration) : LEDStripState :=
  if 0 ≤ duration.num_seconds ∧ duration.num_seconds ≤ 7 then .LightGreen
  else if 8 ≤ duration.num_seconds ∧ duration.num_seconds ≤ 11 then .DarkGreen
  else if 12 ≤ duration.num_seconds ∧ duration.num_seconds ≤ 23 then .Orange
  else if 24 ≤ duration.num_seconds ∧ duration.num_seconds ≤ 25 then .Red
  else .BlinkingRed

/-- `LEDStripState::controller_color` (`src/reminder.rs` lines 43-51). -/
def LEDStripState.controller_color : LEDStripState → RawColor
  | .LightGreen => RPILedController.LIGHT_GREEN
  | .DarkGreen => RPILedController.DARK_GREEN
  | .Orange => RPILedController.ORANGE
  | .Red => RPILedController.RED
  | .BlinkingRed => RPILedController.RED

/-- The band computation of `LedManager::handle (Tick)` in `src/main.rs`
(lines 139-186): `time_elapsed` is compared (full chrono precision, i.e. by
`Duration.value`) against `Duration::hours(8/12/24/26)`. -/
def ledManagerState (elapsed : Duration) : LEDStripState :=
  if elapsed.value < (Duration.hours 8).value then .LightGreen
  else if elapsed.value < (Duration.hours 12).value then .DarkGreen
  else if elapsed.value < (Duration.hours 24).value then .Orange
  else if elapsed.value < (Duration.hours 26).value then .Red
  else .BlinkingRed

/-! ## The Reminder loop (`src/reminder.rs`, `Reminder::run`) -/

/-- The mutable state of `Reminder` that the loop body touches. -/
structure RState where
  last_cleaning_time : Timestamp
  is_strip_on : Bool
deriving DecidableEq

/-- Observable effects of one loop iteration: LED strip writes
(`controller.set_all_to`), the reset notification sent to the
Synchronization Channel (`network_tx.send(StateUpdated(..))`), and the file
persistence performed by `crate::reset_state()`. -/
inductive RemOut where
  | write : RawColor → RemOut
  | sendState : Timestamp → RemOut
  | persist : Timestamp → RemOut
deriving DecidableEq

/-- Per-iteration inputs of the loop body: the successfully-read button
level, the (at most one) drained inbound timestamp update, the current time
`Utc::now()`, and the Vienna-local hour of the current time (the time-zone
conversion `now.with_timezone(&Vienna).hour()` is treated as an input). -/
structure TickInput where
  button_pushed : Bool
  inbound : Option Timestamp
  now : Timestamp
  hour : Nat
deriving DecidableEq

/-- One iteration of `Reminder::run`'s `while` body (`src/reminder.rs`
lines 65-104), with a successful button read.
`reset_state()` is modelled as persisting and returning the tick's `now`. -/
def reminderTick (s : RState) (i : TickInput) : RState × List RemOut :=
  -- reset_state_if_button_pushed (lines 111-118)
  let s1 := if i.button_pushed then { s with last_cleaning_time := i.now } else s
  let outButton : List RemOut :=
    if i.button_pushed then [RemOut.persist i.now, RemOut.sendState i.now] else []
  -- drain at most one CleaningTimeUpdate (lines 68-75)
  let s2 :=
    match i.inbound with
    | some t => { s1 with last_cleaning_time := t }
    | none => s1
  -- lines 77-80
  let is_night : Bool := decide (22 ≤ i.hour) || decide (i.hour < 7)
  let time_elapsed := signed_duration_since i.now s2.last_cleaning_time
  let current_state := LEDStripState.state_from_duration time_elapsed
  -- lines 82-98
  if is_night && s2.is_strip_on then
    ({ s2 with is_strip_on := false }, outButton ++ [RemOut.write RPILedController.BLACK])
  else if !is_night then
    if current_state = LEDStripState.BlinkingRed then
      if s2.is_strip_on then
        ({ s2 with is_strip_on := false }, outButton ++ [RemOut.write RPILedController.BLACK])
      else
        ({ s2 with is_strip_on := true }, outButton ++ [RemOut.write RPILedController.RED])
    else
      (s2, outButton ++ [RemOut.write current_state.controller_color])
  else
    (s2, outButton)

/-- An I/O error returned by `Reminder::read_button_state`. -/
inductive IOErr where
  | gpio
deriving DecidableEq

/-- One iteration of `Reminder::run`'s body including the fallible button
read. `reset_state_if_button_pushed` calls
`self.read_button_state().unwrap()` (`src/reminder.rs` line 112), so an
`Err` panics: the loop (running on the main thread) and the process
terminate. The panic outcome is modelled as `none`. -/
def reminderTickFallible (s : RState) (buttonRead : Except IOErr Bool)
    (inbound : Option Timestamp) (now : Timestamp) (hour : Nat) :
    Option (RState × List RemOut) :=
  match buttonRead with
  | .error _ => none
  | .ok b => some (reminderTick s ⟨b, inbound, now, hour⟩)

/-- The color physically standing on the strip after a list of writes. -/
def lastWrite (strip : RawColor) (outs : List RemOut) : RawColor :=
  outs.foldl
    (fun c o =>
      match o with
      | RemOut.write col => col
      | _ => c)
    strip

/-- The reset notifications among a tick's outputs. -/
def sentResets : List RemOut → List Timestamp
  | [] => []
  | RemOut.sendState t :: rest => t :: sentResets rest
  | _ :: rest => sentResets rest

/-- The persisted timestamps among a tick's outputs. -/
def persistedTimes : List RemOut → List Timestamp
  | [] => []
  | RemOut.persist t :: rest => t :: persistedTimes rest
  | _ :: rest => persistedTimes rest

/-! ## Wire protocol (`src/protocol.rs`)

`Message` is serialized with `bincode::serialize` (bincode 1.x default
options: fixed-width little-endian integers). The enum variant index is a
4-byte little-endian `u32`; `Option` is a one-byte tag (0 = None, 1 = Some);
the timestamp field uses `chrono::serde::ts_seconds_option`, i.e. the
`i64` whole epoch seconds (`dt.timestamp()`, discarding the nanosecond
component), and deserializes to the timestamp with zero nanoseconds. -/

/-- The wire `Message` union (`src/protocol.rs`). -/
inductive Message where
  | RequestState : Message
  | UpdateState : Option Timestamp → Message
deriving DecidableEq

/-- Little-endian bytes of a `u64` (numeric constants are `2^8..2^56`). -/
def i64_digits (m : Nat) : List Nat :=
  [m % 256, m / 256 % 256, m / 65536 % 256, m / 16777216 % 256,
   m / 4294967296 % 256, m / 1099511627776 % 256,
   m / 281474976710656 % 256, m / 72057594037927936 % 256]

/-- Little-endian two's-complement encoding of an `i64`
(`18446744073709551616` is `2^64`). -/
def i64_le_bytes (s : Int) : List Nat :=
  i64_digits (s % 18446744073709551616).toNat

/-- The numeric value of 8 little-endian bytes. -/
def le_bytes_val (c0 c1 c2 c3 c4 c5 c6 c7 : Nat) : Nat :=
  c0 + 256 * c1 + 65536 * c2 + 16777216 * c3 + 4294967296 * c4 +
    1099511627776 * c5 + 281474976710656 * c6 + 72057594037927936 * c7

/-- `bincode::serialize` of a `Message`. -/
def encode : Message → List Nat
  | Message.RequestState => [0, 0, 0, 0]
  | Message.UpdateState none => [1, 0, 0, 0, 0]
  | Message.UpdateState (some t) => 1 :: 0 :: 0 :: 0 :: 1 :: i64_le_bytes t.secs

/-- `bincode::deserialize` of a `Message`: `none` models a deserialization
error (unknown variant index, unknown `Option` tag, or truncated input);
trailing bytes are ignored, as by `bincode::deserialize` on a slice
(`9223372036854775808` is `2^63`, `18446744073709551616` is `2^64`). -/
def decode : List Nat → Option Message
  | 0 :: 0 :: 0 :: 0 :: _ => some Message.RequestState
  | 1 :: 0 :: 0 :: 0 :: 0 :: _ => some (Message.UpdateState none)
  | 1 :: 0 :: 0 :: 0 :: 1 :: c0 :: c1 :: c2 :: c3 :: c4 :: c5 :: c6 :: c7 :: _ =>
      let m := le_bytes_val c0 c1 c2 c3 c4 c5 c6 c7
      some (Message.UpdateState (some
        ⟨if m < 9223372036854775808 then (m : Int)
          else (m : Int) - 18446744073709551616, 0⟩))
  | _ => none

/-! ## The Synchronization Channel (`src/transport.rs`)

State: `other_nodes_connections : HashMap<String, Endpoint>` and
`last_modification_time`. The `HashMap` is modelled as an association list
with unique keys; `HashMap::insert` replaces the entry with a matching key,
`extend` inserts each pair, `retain` filters. `connect_sync` on an address
is modelled as returning that address as the `Endpoint` handle. -/

abbrev Ipv4Addr := Nat

abbrev Endpoint := Nat

/-- `HashMap::contains_key` on the association-list model. -/
def containsKey {α : Type} (m : List (String × α)) (k : String) : Bool :=
  m.any (fun kv => decide (kv.1 = k))

/-- `HashMap::insert`: replace the entry with the same key, else append. -/
def insertKV {α : Type} (m : List (String × α)) (kv : String × α) :
    List (String × α) :=
  if containsKey m kv.1 then m.map (fun e => if e.1 = kv.1 then kv else e)
  else m ++ [kv]

/-- `HashMap::extend`: insert every pair in order. -/
def extendHM {α : Type} (m : List (String × α)) (kvs : List (String × α)) :
    List (String × α) :=
  kvs.foldl insertKV m

/-- `collect::<HashMap<_, _>>()` on a sequence of pairs. -/
def collectHM {α : Type} (kvs : List (String × α)) : List (String × α) :=
  extendHM [] kvs

/-- Unique-keys invariant of the `HashMap` model. -/
def keysNodup {α : Type} (m : List (String × α)) : Prop :=
  (m.map Prod.fst).Nodup

/-- The state owned by `transport::run`. -/
structure TState where
  last : Timestamp
  conns : List (String × Endpoint)
deriving DecidableEq

/-- Observable outputs of the transport event loop: a datagram sent to an
endpoint (`handler.network().send`) or a `ReminderEvent::CleaningTimeUpdated`
forwarded to the Reminder State Machine (`reminder_tx.send`). -/
inductive TOut where
  | send : Endpoint → Message → TOut
  | toReminder : Timestamp → TOut
deriving DecidableEq

/-- The control events drained from the mpsc channel on a tick
(`src/transport.rs` `TransportEvent`). -/
inductive TransportEvent where
  | NodeListUpdated : List (String × List Ipv4Addr) → TransportEvent
  | CleaningTimeReset : Timestamp → TransportEvent

/-- `NetEvent::Message` handling of a decoded `Message`
(`src/transport.rs` lines 44-59): `RequestState` gets a unicast
`UpdateState(Some(last_modification_time))` reply to the sender;
`UpdateState(Some(ts))` unconditionally overwrites `last_modification_time`
and forwards `ts` to the Reminder State Machine (no version comparison);
`UpdateState(None)` does nothing. -/
def transportHandleMessage (st : TState) (sender : Endpoint) :
    Message → TState × List TOut
  | Message.RequestState =>
      (st, [TOut.send sender (Message.UpdateState (some st.last))])
  | Message.UpdateState none => (st, [])
  | Message.UpdateState (some t) =>
      ({ st with last := t }, [TOut.toReminder t])

/-- `NetEvent::Message` handling of a raw datagram (`src/transport.rs`
line 45): `bincode::deserialize(&input_data).unwrap()` — a payload that does
not decode panics the event-loop thread, modelled as `none`. -/
def transportHandleDatagram (st : TState) (sender : Endpoint)
    (payload : List Nat) : Option (TState × List TOut) :=
  match decode payload with
  | none => none
  | some m => some (transportHandleMessage st sender m)

/-- Result of processing one `NodeListUpdated` event: the new connection
table, the `connect_sync` calls performed ((identity, address) pairs, in
order), and the datagrams sent. -/
structure NodeListResult where
  conns : List (String × Endpoint)
  connects : List (String × Ipv4Addr)
  sends : List TOut
deriving DecidableEq

/-- The `connect_sync` calls of `src/transport.rs` lines 70-78: one per
address of each identity of the received list not already connected. -/
def transport_newPairs (conns : List (String × Endpoint))
    (list : List (String × List Ipv4Addr)) : List (String × Ipv4Addr) :=
  (list.filter (fun kv => !containsKey conns kv.1)).flatMap
    (fun kv => kv.2.map (fun ip => (kv.1, ip)))

/-- The `new_node_connections` map of `src/transport.rs` line 70-78. -/
def transport_newConns (conns : List (String × Endpoint))
    (list : List (String × List Ipv4Addr)) : List (String × Endpoint) :=
  collectHM (transport_newPairs conns list)

/-- The `require_state` flag of `src/transport.rs` line 79. -/
def transport_requireState (conns : List (String × Endpoint))
    (list : List (String × List Ipv4Addr)) : Bool :=
  decide (conns.length = 0) && decide (0 < (transport_newConns conns list).length)

/-- The connection table after `extend` and `retain`
(`src/transport.rs` lines 80-83). -/
def transport_retained (conns : List (String × Endpoint))
    (list : List (String × List Ipv4Addr)) : List (String × Endpoint) :=
  (extendHM conns (transport_newConns conns list)).filter
    (fun kv => containsKey list kv.1)

/-- `TransportEvent::NodeListUpdated` handling (`src/transport.rs` lines
68-93): connect to every address of every identity not already connected,
collect into a map (one endpoint per identity), remember whether the
connection set was empty and at least one new connection was made
(`require_state`), extend the table, retain only identities present in the
received list, and if `require_state`, send `RequestState` to the first
connection in the table. -/
def transport_handleNodeList (conns : List (String × Endpoint))
    (list : List (String × List Ipv4Addr)) : NodeListResult :=
  ⟨transport_retained conns list, transport_newPairs conns list,
   if transport_requireState conns list then
     match (transport_retained conns list).head? with
     | some kv => [TOut.send kv.2 Message.RequestState]
     | none => []
   else []⟩

/-- `NetworkEvent::NodeListUpdated` handling in the earlier snapshot
(`src/network.rs` lines 65-73): the whole connection table is rebuilt by
calling `connect_sync` for every address of every identity in the received
list, regardless of the existing connections (which are discarded). -/
def network_handleNodeList (_conns : List (String × Endpoint))
    (list : List (String × List Ipv4Addr)) : NodeListResult :=
  let pairs := list.flatMap (fun kv => kv.2.map (fun ip => (kv.1, ip)))
  ⟨collectHM pairs, pairs, []⟩

/-- Tick-time control-event handling of `transport::run`
(`src/transport.rs` lines 66-107). On `CleaningTimeReset(t)`:
adopt `t` and send `UpdateState(Some(t))` to every connection. -/
def transport_handleControl (st : TState) :
    TransportEvent → TState × List TOut
  | TransportEvent.NodeListUpdated list =>
      let r := transport_handleNodeList st.conns list
      ({ st with conns := r.conns }, r.sends)
  | TransportEvent.CleaningTimeReset t =>
      ({ st with last := t },
       st.conns.map (fun kv => TOut.send kv.2 (Message.UpdateState (some t))))

/-- The messages among a transport output list that were sent to peers. -/
def sentMessages : List TOut → List Message
  | [] => []
  | TOut.send _ m :: rest => m :: sentMessages rest
  | _ :: rest => sentMessages rest

/-! ## Claim theorems: the state derivation (C1, C10) -/

/-- C1: the claim states that the derived reminder state follows the bands
Fresh below 8 hours, Aging below 12, Warning below 24, Urgent below 26 and
Critical above. The code of `LEDStripState::state_from_duration`
(`src/reminder.rs` lines 33-41) applies the thresholds 8/12/24/26 to
`num_seconds()`, i.e. to SECONDS: at an elapsed time of 9 hours (32400
seconds, which the claim places in the Aging band) it returns the Critical
band `BlinkingRed`, while the `LedManager::handle (Tick)` band computation
of `src/main.rs` (lines 139-186), which compares the same elapsed time
against `Duration::hours(..)` thresholds, returns `DarkGreen` (Aging) as
the claim states. The hour-scale thresholds are the documented intent, so
`num_seconds` in `state_from_duration` is a slip (`num_hours` was meant). -/
theorem c1_state_bands_use_seconds_not_hours :
    LEDStripState.state_from_duration ⟨32400, 0⟩ = LEDStripState.BlinkingRed ∧
    ledManagerState ⟨32400, 0⟩ = LEDStripState.DarkGreen ∧
    LEDStripState.BlinkingRed ≠ LEDStripState.DarkGreen := by
  decide

/-- C10 counterexample: the claim says EVERY negative elapsed duration maps
to `BlinkingRed`. The duration -0.5 s (chrono-normalized as
`secs = -1, nanos = 500000000`) is negative, but `num_seconds()` truncates
toward zero and yields 0, which falls in the `0..=7` arm: the result is
`LightGreen` (Fresh), not `BlinkingRed`. -/
theorem c10_subsecond_negative_is_fresh :
    Duration.value ⟨-1, 500000000⟩ < 0 ∧
    LEDStripState.state_from_duration ⟨-1, 500000000⟩ = LEDStripState.LightGreen ∧
    LEDStripState.LightGreen ≠ LEDStripState.BlinkingRed := by
  decide

/-- C10 (amended): every elapsed duration of at least one whole second in
the past — i.e. value at most -1 s, equivalently `num_seconds() ≤ -1` —
falls into the catch-all match arm of `state_from_duration` and yields
`BlinkingRed`; only negative durations strictly between -1 s and 0 truncate
to 0 whole seconds and yield `LightGreen` (Fresh). -/
theorem c10_negative_seconds_blink (d : Duration)
    (hnanos : d.nanos < 1000000000) (hneg : d.value ≤ -1000000000) :
    LEDStripState.state_from_duration d = LEDStripState.BlinkingRed := by
  have hs : d.num_seconds ≤ -1 := by
    unfold Duration.num_seconds
    unfold Duration.value at hneg
    split <;> omega
  unfold LEDStripState.state_from_duration
  rw [if_neg (by omega), if_neg (by omega), if_neg (by omega), if_neg (by omega)]

/-- C10 witness: the duration of exactly -1 s is negative and blinks red. -/
theorem c10_negative_seconds_blink_witness :
    (⟨-1, 0⟩ : Duration).nanos < 1000000000 ∧
    (⟨-1, 0⟩ : Duration).value ≤ -1000000000 ∧
    LEDStripState.state_from_duration ⟨-1, 0⟩ = LEDStripState.BlinkingRed :=
  ⟨by decide, by decide, c10_negative_seconds_blink ⟨-1, 0⟩ (by decide) (by decide)⟩

/-! ## Claim theorems: the Reminder loop (C2, C9) -/

/-- C2: the claim says every night tick leaves the strip black regardless of
previous state. In `Reminder::run` (`src/reminder.rs` lines 82-98) the night
branch writes black only when `is_strip_on` is true, and the daytime
static-color branch never sets `is_strip_on`. Witnessing trace: starting
from `is_strip_on = false` with a black strip, a day tick (hour 12, elapsed
15 s = Orange band) paints the strip Orange and leaves `is_strip_on =
false`; the following night tick (hour 23) then performs NO write at all
and the strip stays Orange through the night — contradicting the claim
(and the intent documented in `src/main.rs`, whose night branch writes
black unconditionally). -/
theorem c2_night_leaves_static_color_standing :
    (reminderTick ⟨⟨0, 0⟩, false⟩ ⟨false, none, ⟨15, 0⟩, 12⟩).2 =
      [RemOut.write RPILedController.ORANGE] ∧
    (reminderTick ⟨⟨0, 0⟩, false⟩ ⟨false, none, ⟨15, 0⟩, 12⟩).1 = ⟨⟨0, 0⟩, false⟩ ∧
    (reminderTick ⟨⟨0, 0⟩, false⟩ ⟨false, none, ⟨20, 0⟩, 23⟩).2 = [] ∧
    lastWrite
      (lastWrite RPILedController.BLACK
        (reminderTick ⟨⟨0, 0⟩, false⟩ ⟨false, none, ⟨15, 0⟩, 12⟩).2)
      (reminderTick ⟨⟨0, 0⟩, false⟩ ⟨false, none, ⟨20, 0⟩, 23⟩).2 =
      RPILedController.ORANGE ∧
    RPILedController.ORANGE ≠ RPILedController.BLACK := by
  decide

/-- C9 counterexample: the claim says a button-read I/O error aborts only
that cycle and the loop proceeds. `reset_state_if_button_pushed`
(`src/reminder.rs` line 112) calls `self.read_button_state().unwrap()`, so
an `Err` panics the Reminder loop (which runs on the main thread): the
cycle does not complete and no subsequent cycle runs, modelled by the step
function returning `none` instead of a successor state. -/
theorem c9_button_error_kills_loop :
    reminderTickFallible ⟨⟨0, 0⟩, false⟩ (Except.error IOErr.gpio) none ⟨0, 0⟩ 12
      = none := by
  decide

/-- C9 (amended): a button-read I/O error is never swallowed — it panics
the Reminder loop via `unwrap()`, terminating the loop and the process, in
every state and on every tick; button-read failure is thus effectively in
the fatal class, exactly like hardware write failure. -/
theorem c9_button_error_fatal (s : RState) (e : IOErr)
    (inbound : Option Timestamp) (now : Timestamp) (hour : Nat) :
    reminderTickFallible s (Except.error e) inbound now hour = none :=
  rfl

/-! ## Claim theorems: the Synchronization Channel (C3, C6) -/

/-- C3: on a received `UpdateState` carrying a timestamp `t`
(`src/transport.rs` lines 52-58), the Synchronization Channel replaces
`last_modification_time` with `t` and forwards `t` to the Reminder State
Machine — unconditionally, for every current state `st`, with no version
or recency comparison (the theorem quantifies over all `st` and `t`, so in
particular it holds when `t` is older than `st.last`: last write wins). -/
theorem c3_update_state_last_write_wins (st : TState) (sender : Endpoint)
    (t : Timestamp) :
    transportHandleMessage st sender (Message.UpdateState (some t)) =
      ({ st with last := t }, [TOut.toReminder t]) :=
  rfl

/-- C6: the claim says a malformed inbound datagram is logged and dropped
and the event loop continues with unchanged state. The code
(`src/transport.rs` line 45, likewise `src/network.rs` line 43) calls
`bincode::deserialize(&input_data).unwrap()`, so a payload that does not
decode — e.g. the four bytes `[2,0,0,0]`, an invalid variant index —
panics the event-loop thread (modelled as `none`): the loop crashes
instead of continuing. -/
theorem c6_malformed_payload_panics :
    decode [2, 0, 0, 0] = none ∧
    transportHandleDatagram ⟨⟨0, 0⟩, []⟩ 5 [2, 0, 0, 0] = none := by
  decide

/-! ## Claim theorems: button reset and broadcast (C4) -/

/-- LED writes carry no reset notification. -/
theorem sentResets_append_write (outs : List RemOut) (c : RawColor) :
    sentResets (outs ++ [RemOut.write c]) = sentResets outs := by
  induction outs with
  | nil => rfl
  | cons o rest ih => cases o <;> simp [sentResets, ih]

/-- LED writes persist nothing. -/
theorem persistedTimes_append_write (outs : List RemOut) (c : RawColor) :
    persistedTimes (outs ++ [RemOut.write c]) = persistedTimes outs := by
  induction outs with
  | nil => rfl
  | cons o rest ih => cases o <;> simp [persistedTimes, ih]

/-- C4: on every tick whose button read is `true`, the Reminder loop sends
exactly one reset notification, carrying the current time, to the
Synchronization Channel, persists exactly that timestamp, and (when no
inbound network update is drained in the same tick) ends the tick with
`last_cleaning_time = now`, i.e. elapsed time 0; and for every
`CleaningTimeReset(t)` the Synchronization Channel adopts `t` and sends
`UpdateState(Some(t))` to every connected peer — one message per
connection-table entry (`src/reminder.rs` lines 111-118,
`src/transport.rs` lines 95-105, same broadcast in `src/network.rs`
lines 74-83). -/
theorem c4_button_reset_broadcast (s : RState) (inbound : Option Timestamp)
    (now : Timestamp) (hour : Nat) (st : TState) (t : Timestamp) :
    (sentResets (reminderTick s ⟨true, inbound, now, hour⟩).2 = [now] ∧
     persistedTimes (reminderTick s ⟨true, inbound, now, hour⟩).2 = [now] ∧
     (inbound = none →
       (reminderTick s ⟨true, inbound, now, hour⟩).1.last_cleaning_time = now)) ∧
    transport_handleControl st (TransportEvent.CleaningTimeReset t) =
      ({ st with last := t },
       st.conns.map (fun kv => TOut.send kv.2 (Message.UpdateState (some t)))) := by
  refine ⟨⟨?_, ?_, ?_⟩, rfl⟩
  · simp only [reminderTick]
    split_ifs <;> simp [sentResets_append_write, sentResets]
  · simp only [reminderTick]
    split_ifs <;> simp [persistedTimes_append_write, persistedTimes]
  · intro h
    subst h
    simp only [reminderTick]
    split_ifs <;> rfl

/-- C4 witness: a concrete pressed tick from a fresh state and a concrete
reset broadcast to a single connected peer. -/
theorem c4_button_reset_broadcast_witness :
    sentResets (reminderTick ⟨⟨0, 0⟩, false⟩ ⟨true, none, ⟨5, 0⟩, 12⟩).2 = [⟨5, 0⟩] ∧
    persistedTimes (reminderTick ⟨⟨0, 0⟩, false⟩ ⟨true, none, ⟨5, 0⟩, 12⟩).2 = [⟨5, 0⟩] ∧
    (reminderTick ⟨⟨0, 0⟩, false⟩ ⟨true, none, ⟨5, 0⟩, 12⟩).1.last_cleaning_time = ⟨5, 0⟩ ∧
    transport_handleControl ⟨⟨0, 0⟩, [("a", 7)]⟩
        (TransportEvent.CleaningTimeReset ⟨9, 0⟩) =
      (⟨⟨9, 0⟩, [("a", 7)]⟩, [TOut.send 7 (Message.UpdateState (some ⟨9, 0⟩))]) := by
  have h := c4_button_reset_broadcast ⟨⟨0, 0⟩, false⟩ none ⟨5, 0⟩ 12
    ⟨⟨0, 0⟩, [("a", 7)]⟩ ⟨9, 0⟩
  exact ⟨h.1.1, h.1.2.1, h.1.2.2 rfl, h.2⟩

/-! ## Lemmas about the association-list `HashMap` model -/

theorem containsKey_iff {α : Type} (m : List (String × α)) (k : String) :
    containsKey m k = true ↔ ∃ kv ∈ m, kv.1 = k := by
  simp [containsKey]

theorem containsKey_of_mem {α : Type} {m : List (String × α)}
    {kv : String × α} (h : kv ∈ m) : containsKey m kv.1 = true :=
  (containsKey_iff m kv.1).mpr ⟨kv, h, rfl⟩

theorem insertKV_ne_nil {α : Type} (m : List (String × α)) (kv : String × α) :
    insertKV m kv ≠ [] := by
  unfold insertKV
  split
  · rename_i hck
    intro h
    rw [List.map_eq_nil_iff] at h
    subst h
    simp [containsKey] at hck
  · simp

theorem extendHM_ne_nil_left {α : Type} (kvs : List (String × α)) :
    ∀ m : List (String × α), m ≠ [] → extendHM m kvs ≠ [] := by
  induction kvs with
  | nil => intro m h; exact h
  | cons a rest ih =>
    intro m _
    exact ih (insertKV m a) (insertKV_ne_nil m a)

theorem extendHM_ne_nil_right {α : Type} (m : List (String × α))
    (kvs : List (String × α)) (h : kvs ≠ []) : extendHM m kvs ≠ [] := by
  cases kvs with
  | nil => exact absurd rfl h
  | cons a rest => exact extendHM_ne_nil_left rest (insertKV m a) (insertKV_ne_nil m a)

theorem mem_insertKV {α : Type} {m : List (String × α)} {kv e : String × α}
    (h : e ∈ insertKV m kv) : e ∈ m ∨ e = kv := by
  unfold insertKV at h
  split at h
  · rw [List.mem_map] at h
    obtain ⟨a, ha, hae⟩ := h
    by_cases hc : a.1 = kv.1
    · right; rw [if_pos hc] at hae; exact hae.symm
    · left; rw [if_neg hc] at hae; exact hae ▸ ha
  · rw [List.mem_append] at h
    rcases h with h | h
    · exact Or.inl h
    · right; simpa using h

theorem mem_extendHM {α : Type} {e : String × α} (kvs : List (String × α)) :
    ∀ m : List (String × α), e ∈ extendHM m kvs → e ∈ m ∨ e ∈ kvs := by
  induction kvs with
  | nil => intro m h; exact Or.inl h
  | cons a rest ih =>
    intro m h
    rcases ih (insertKV m a) h with h1 | h1
    · rcases mem_insertKV h1 with h2 | h2
      · exact Or.inl h2
      · exact Or.inr (by simp [h2])
    · exact Or.inr (List.mem_cons_of_mem _ h1)

theorem mem_insertKV_of_mem {α : Type} {m : List (String × α)} {e : String × α}
    (he : e ∈ m) (kv : String × α) (hne : e.1 ≠ kv.1) : e ∈ insertKV m kv := by
  unfold insertKV
  split
  · rw [List.mem_map]
    exact ⟨e, he, by rw [if_neg hne]⟩
  · exact List.mem_append_left _ he

theorem mem_extendHM_of_mem {α : Type} {e : String × α} (kvs : List (String × α)) :
    ∀ m : List (String × α), e ∈ m → (∀ kv ∈ kvs, e.1 ≠ kv.1) →
      e ∈ extendHM m kvs := by
  induction kvs with
  | nil => intro m he _; exact he
  | cons a rest ih =>
    intro m he hk
    exact ih (insertKV m a) (mem_insertKV_of_mem he a (hk a (by simp)))
      (fun kv hkv => hk kv (by simp [hkv]))

theorem keysNodup_insertKV {α : Type} {m : List (String × α)}
    (h : keysNodup m) (kv : String × α) : keysNodup (insertKV m kv) := by
  unfold insertKV
  split
  · unfold keysNodup at h ⊢
    have hmap : (m.map fun e => if e.1 = kv.1 then kv else e).map Prod.fst =
        m.map Prod.fst := by
      rw [List.map_map]
      refine List.map_congr_left ?_
      intro a _
      by_cases hc : a.1 = kv.1
      · simp [hc]
      · simp [hc]
    rw [hmap]
    exact h
  · rename_i hck
    unfold keysNodup at h ⊢
    rw [List.map_append]
    have hnot : kv.1 ∉ m.map Prod.fst := by
      intro hmem
      rw [List.mem_map] at hmem
      obtain ⟨a, ha, hae⟩ := hmem
      exact hck (hae ▸ containsKey_of_mem ha)
    simp [List.nodup_append, h, hnot]

theorem keysNodup_extendHM {α : Type} (kvs : List (String × α)) :
    ∀ m : List (String × α), keysNodup m → keysNodup (extendHM m kvs) := by
  induction kvs with
  | nil => intro m h; exact h
  | cons a rest ih =>
    intro m h
    exact ih (insertKV m a) (keysNodup_insertKV h a)

/-- Every `(identity, address)` pair produced for `connect_sync` by a
`NodeListUpdated` tick comes from an identity present in the received list
and not already connected. -/
theorem mem_transport_newPairs {conns : List (String × Endpoint)}
    {list : List (String × List Ipv4Addr)} {e : String × Ipv4Addr}
    (h : e ∈ transport_newPairs conns list) :
    containsKey list e.1 = true ∧ containsKey conns e.1 = false := by
  unfold transport_newPairs at h
  rw [List.mem_flatMap] at h
  obtain ⟨kv, hkv, he⟩ := h
  rw [List.mem_filter] at hkv
  obtain ⟨hkvl, hpred⟩ := hkv
  rw [List.mem_map] at he
  obtain ⟨ip, _, rfl⟩ := he
  exact ⟨containsKey_of_mem hkvl, by simpa using hpred⟩

theorem mem_transport_newConns {conns : List (String × Endpoint)}
    {list : List (String × List Ipv4Addr)} {e : String × Endpoint}
    (h : e ∈ transport_newConns conns list) :
    e ∈ transport_newPairs conns list := by
  unfold transport_newConns collectHM at h
  rcases mem_extendHM _ _ h with h1 | h1
  · simp at h1
  · exact h1

theorem filter_of_all_true {α : Type} (p : α → Bool) (l : List α)
    (h : ∀ a ∈ l, p a = true) : l.filter p = l := by
  induction l with
  | nil => rfl
  | cons a rest ih =>
    rw [List.filter_cons, if_pos (h a (by simp))]
    rw [ih (fun b hb => h b (by simp [hb]))]

/-! ## Claim theorems: NodeListUpdated handling (C5, C7) -/

/-- C5: when the connection set is empty and the received node table yields
at least one new connection, the tick sends exactly one `RequestState`
(`require_state` in `src/transport.rs` lines 79-93, sent to the first —
arbitrarily ordered — entry of the map); when the connection set was
already non-empty, `require_state` is false and nothing is sent. -/
theorem c5_bootstrap_request_state (conns : List (String × Endpoint))
    (list : List (String × List Ipv4Addr)) :
    (conns = [] → (transport_handleNodeList conns list).connects ≠ [] →
      sentMessages (transport_handleNodeList conns list).sends =
        [Message.RequestState]) ∧
    (conns ≠ [] → (transport_handleNodeList conns list).sends = []) := by
  constructor
  · intro hc hne
    subst hc
    have hp : transport_newPairs [] list ≠ [] := hne
    have hcoll : transport_newConns [] list ≠ [] := by
      unfold transport_newConns collectHM
      exact extendHM_ne_nil_right [] _ hp
    have hreq : transport_requireState [] list = true := by
      unfold transport_requireState
      simp [List.length_pos, hcoll]
    have hall : ∀ e ∈ extendHM [] (transport_newConns [] list),
        containsKey list e.1 = true := by
      intro e he
      rcases mem_extendHM _ _ he with h1 | h1
      · simp at h1
      · exact (mem_transport_newPairs (mem_transport_newConns h1)).1
    have hretained : transport_retained [] list =
        extendHM [] (transport_newConns [] list) := by
      unfold transport_retained
      exact filter_of_all_true _ _ hall
    have hext : extendHM [] (transport_newConns [] list) ≠ [] :=
      extendHM_ne_nil_right [] _ hcoll
    rw [← hretained] at hext
    obtain ⟨a, rest, hA⟩ := List.exists_cons_of_ne_nil hext
    simp [transport_handleNodeList, hreq, hA, sentMessages]
  · intro hc
    have h0 : ¬(conns.length = 0) := by
      simpa [List.length_eq_zero] using hc
    simp [transport_handleNodeList, transport_requireState, h0]

/-- C5 witness: a node with no connections discovering one peer sends
exactly one `RequestState`; a node with an existing connection sends
nothing on a node-list update. -/
theorem c5_bootstrap_request_state_witness :
    sentMessages (transport_handleNodeList [] [("a", [7])]).sends =
      [Message.RequestState] ∧
    (transport_handleNodeList [("b", 3)] [("a", [7])]).sends = [] := by
  have h1 := c5_bootstrap_request_state [] [("a", [7])]
  have h2 := c5_bootstrap_request_state [("b", 3)] [("a", [7])]
  exact ⟨h1.1 rfl (by decide), h2.2 (by decide)⟩

/-- C7 counterexample: the claim (which cites both `NodeListUpdated`
handlers) says connections are created only for identities not already
connected. The `src/network.rs` snapshot (lines 65-73) rebuilds the whole
table: with identity `a` already connected and a table containing `a`, it
calls `connect_sync` for `a` again — refuting the claim at this input. -/
theorem c7_network_snapshot_reconnects :
    ¬(∀ p ∈ (network_handleNodeList [("a", 7)] [("a", [7])]).connects,
        containsKey [("a", 7)] p.1 = false) := by
  decide

/-- C7 (amended): for the current Synchronization Channel
(`src/transport.rs` lines 68-84) the claim holds: processing
`NodeListUpdated` (1) keeps every existing connection entry whose identity
is still in the received table, unchanged; (2) afterwards no connection
exists for an identity absent from the table; (3) `connect_sync` is called
only for identities not already connected; and (4) the table keeps at most
one connection per identity. The superseded `src/network.rs` snapshot
instead reconnects every identity on every update. -/
theorem c7_node_list_frame_effect (conns : List (String × Endpoint))
    (list : List (String × List Ipv4Addr)) (wf : keysNodup conns) :
    (∀ kv, kv ∈ conns → containsKey list kv.1 = true →
      kv ∈ (transport_handleNodeList conns list).conns) ∧
    (∀ k, containsKey list k = false →
      containsKey (transport_handleNodeList conns list).conns k = false) ∧
    (∀ p, p ∈ (transport_handleNodeList conns list).connects →
      containsKey conns p.1 = false) ∧
    keysNodup (transport_handleNodeList conns list).conns := by
  refine ⟨?_, ?_, ?_, ?_⟩
  · intro kv hkv hlist
    have hnc : ∀ e ∈ transport_newConns conns list, kv.1 ≠ e.1 := by
      intro e he heq
      have hfalse := (mem_transport_newPairs (mem_transport_newConns he)).2
      have htrue := containsKey_of_mem hkv
      rw [heq, hfalse] at htrue
      exact Bool.false_ne_true htrue
    have hin : kv ∈ extendHM conns (transport_newConns conns list) :=
      mem_extendHM_of_mem _ _ hkv hnc
    show kv ∈ transport_retained conns list
    unfold transport_retained
    exact List.mem_filter.mpr ⟨hin, hlist⟩
  · intro k hk
    by_contra hcontra
    have h1 : containsKey (transport_handleNodeList conns list).conns k = true := by
      cases hcase : containsKey (transport_handleNodeList conns list).conns k
      · exact absurd hcase hcontra
      · rfl
    rw [containsKey_iff] at h1
    obtain ⟨e, he, hek⟩ := h1
    have he2 : e ∈ (extendHM conns (transport_newConns conns list)).filter
        (fun kv => containsKey list kv.1) := he
    rw [List.mem_filter] at he2
    have hl := he2.2
    rw [hek] at hl
    rw [hl] at hk
    exact Bool.noConfusion hk
  · intro p hp
    exact (mem_transport_newPairs hp).2
  · show keysNodup (transport_retained conns list)
    have hA : keysNodup (extendHM conns (transport_newConns conns list)) :=
      keysNodup_extendHM _ _ wf
    unfold transport_retained keysNodup
    exact List.Nodup.sublist ((List.filter_sublist _).map Prod.fst) hA

/-- C7 witness: with `a` and `b` connected and a table containing `a` and
`c`, the entry for `a` survives unchanged, `b` is removed, `connect_sync`
is only called for the not-yet-connected `c`, and keys stay unique. -/
theorem c7_node_list_frame_effect_witness :
    ("a", 3) ∈
      (transport_handleNodeList [("a", 3), ("b", 4)] [("a", [7]), ("c", [9])]).conns ∧
    containsKey
      (transport_handleNodeList [("a", 3), ("b", 4)] [("a", [7]), ("c", [9])]).conns
      "b" = false ∧
    containsKey [("a", 3), ("b", 4)] "c" = false ∧
    keysNodup
      (transport_handleNodeList [("a", 3), ("b", 4)] [("a", [7]), ("c", [9])]).conns := by
  have h := c7_node_list_frame_effect [("a", 3), ("b", 4)] [("a", [7]), ("c", [9])]
    (by unfold keysNodup; decide)
  exact ⟨h.1 ("a", 3) (by decide) (by decide), h.2.1 "b" (by decide),
    h.2.2.1 ("c", 9) (by decide), h.2.2.2⟩

/-! ## Claim theorems: wire round-trip (C8) -/

theorem le_bytes_val_digits (m : Nat) (h : m < 18446744073709551616) :
    le_bytes_val (m % 256) (m / 256 % 256) (m / 65536 % 256) (m / 16777216 % 256)
      (m / 4294967296 % 256) (m / 1099511627776 % 256)
      (m / 281474976710656 % 256) (m / 72057594037927936 % 256) = m := by
  unfold le_bytes_val
  omega

theorem decode_update_bytes (c0 c1 c2 c3 c4 c5 c6 c7 : Nat) (rest : List Nat) :
    decode (1 :: 0 :: 0 :: 0 :: 1 ::
        c0 :: c1 :: c2 :: c3 :: c4 :: c5 :: c6 :: c7 :: rest) =
      some (Message.UpdateState (some
        ⟨if le_bytes_val c0 c1 c2 c3 c4 c5 c6 c7 < 9223372036854775808
            then ((le_bytes_val c0 c1 c2 c3 c4 c5 c6 c7 : Nat) : Int)
            else ((le_bytes_val c0 c1 c2 c3 c4 c5 c6 c7 : Nat) : Int) -
              18446744073709551616,
          0⟩)) :=
  rfl

/-- C8 counterexample: the claim asserts the round-trip is the identity for
EVERY timestamp. The wire field uses `chrono::serde::ts_seconds_option`,
which serializes only the whole epoch seconds: a timestamp with a non-zero
sub-second component (here 0.5 s past the epoch, exactly what `Utc::now()`
produces) comes back truncated, not equal to the original. -/
theorem c8_subsecond_truncation :
    decode (encode (Message.UpdateState (some ⟨0, 500000000⟩))) =
      some (Message.UpdateState (some ⟨0, 0⟩)) ∧
    (⟨0, 500000000⟩ : Timestamp) ≠ (⟨0, 0⟩ : Timestamp) := by
  decide

/-- C8 (amended): decoding the encoding is the identity on `RequestState`,
and on `UpdateState(Some(t))` for every timestamp `t` whose sub-second
nanosecond component is zero (with `t.secs` in the `i64` range, which holds
for every representable `DateTime<Utc>`); in general the round-trip returns
the timestamp truncated to whole epoch seconds. -/
theorem c8_round_trip (t : Timestamp) (hn : t.nanos = 0)
    (h1 : -9223372036854775808 ≤ t.secs) (h2 : t.secs < 9223372036854775808) :
    decode (encode Message.RequestState) = some Message.RequestState ∧
    decode (encode (Message.UpdateState (some t))) =
      some (Message.UpdateState (some t)) := by
  refine ⟨rfl, ?_⟩
  obtain ⟨s, n⟩ := t
  dsimp only at hn h1 h2
  subst hn
  have henc : encode (Message.UpdateState (some ⟨s, 0⟩)) =
      1 :: 0 :: 0 :: 0 :: 1 ::
        i64_digits (s % 18446744073709551616).toNat := rfl
  rw [henc]
  have hmlt : (s % 18446744073709551616).toNat < 18446744073709551616 := by
    omega
  have hd : i64_digits (s % 18446744073709551616).toNat =
      [(s % 18446744073709551616).toNat % 256,
       (s % 18446744073709551616).toNat / 256 % 256,
       (s % 18446744073709551616).toNat / 65536 % 256,
       (s % 18446744073709551616).toNat / 16777216 % 256,
       (s % 18446744073709551616).toNat / 4294967296 % 256,
       (s % 18446744073709551616).toNat / 1099511627776 % 256,
       (s % 18446744073709551616).toNat / 281474976710656 % 256,
       (s % 18446744073709551616).toNat / 72057594037927936 % 256] := rfl
  rw [hd, decode_update_bytes,
    le_bytes_val_digits (s % 18446744073709551616).toNat hmlt]
  have hval : (if (s % 18446744073709551616).toNat < 9223372036854775808
      then (((s % 18446744073709551616).toNat : Nat) : Int)
      else (((s % 18446744073709551616).toNat : Nat) : Int) -
        18446744073709551616) = s := by
    split <;> omega
  rw [hval]

/-- C8 witness: the round-trip is the identity at the whole-second
timestamp 42 s past the epoch. -/
theorem c8_round_trip_witness :
    (⟨42, 0⟩ : Timestamp).nanos = 0 ∧
    decode (encode Message.RequestState) = some Message.RequestState ∧
    decode (encode (Message.UpdateState (some ⟨42, 0⟩))) =
      some (Message.UpdateState (some ⟨42, 0⟩)) := by
  have h := c8_round_trip ⟨42, 0⟩ rfl (by decide) (by decide)
  exact ⟨rfl, h.1, h.2⟩

/-- C3 witness: an `UpdateState` carrying the timestamp 50 s, older than
the current value 100 s, still overwrites it and is forwarded. -/
theorem c3_update_state_last_write_wins_witness :
    transportHandleMessage ⟨⟨100, 0⟩, []⟩ 5 (Message.UpdateState (some ⟨50, 0⟩)) =
      (⟨⟨50, 0⟩, []⟩, [TOut.toReminder ⟨50, 0⟩]) :=
  c3_update_state_last_write_wins ⟨⟨100, 0⟩, []⟩ 5 ⟨50, 0⟩

/-- C9 witness: a concrete cycle whose button read fails panics
irrespective of the pending inbound update. -/
theorem c9_button_error_fatal_witness :
    reminderTickFallible ⟨⟨3, 0⟩, true⟩ (Except.error IOErr.gpio)
      (some ⟨4, 0⟩) ⟨5, 0⟩ 9 = none :=
  c9_button_error_fatal ⟨⟨3, 0⟩, true⟩ IOErr.gpio (some ⟨4, 0⟩) ⟨5, 0⟩ 9
